import Mathlib

/-!
Shallow embedding of the session-state core of a Flask chat application
(source file: src/main.py).

Modelling conventions:
  * Python dicts (which preserve insertion order) are association lists
    `List (String × Session)`; `dictGet`, `dictInsert`, `dictDelete` model
    `d[k]`, `d[k] = v` and `del d[k]`.
  * The wall clock is passed explicitly: `datetime.now().timestamp()` as a
    `Nat` of whole seconds, `datetime.now().isoformat()` and
    `strftime("%H:%M")` as `String` arguments.
  * The external generative-model call is replaced by a `String` parameter
    holding the concatenated streamed reply (or the error text the handler
    builds on failure); its value never influences registry control flow.
  * A handler that returns HTTP 404, or that would raise a `KeyError`,
    is modelled as returning `none`.
-/

namespace ChatBot

/-- Content part as the handlers build them: a text part
(`types.Part.from_text`) or an image part (`types.Part.from_bytes`,
raw bytes plus a MIME type string). -/
inductive Part where
  | text (s : String)
  | image (data : List Nat) (mime : String)
deriving Repr, DecidableEq

/-- One history entry (`types.Content`): a role string ("user" or "model")
and an ordered list of parts. -/
structure Content where
  role : String
  parts : List Part
deriving Repr, DecidableEq

/-- One session record, the value stored in the `chat_sessions` dict
(main.py lines 49-54): history, ISO creation timestamp string, title,
pin flag. -/
structure Session where
  history : List Content
  created_at : String
  title : String
  pinned : Bool
deriving Repr, DecidableEq

/-- Global mutable state of main.py (lines 26-27): the insertion-ordered
`chat_sessions` dict and the `current_session_id` pointer. -/
structure AppState where
  chat_sessions : List (String × Session)
  current_session_id : Option String
deriving Repr, DecidableEq

/-- Python truthiness / emptiness test on a string, by characters (structural,
so it reduces in the kernel, unlike the byte-position based core functions). -/
def strIsEmpty (s : String) : Bool := s.toList.isEmpty

/-- Python `str.strip()`: drop whitespace from both ends. -/
def pyStrip (s : String) : String :=
  String.mk
    (((s.toList.dropWhile Char.isWhitespace).reverse.dropWhile
        Char.isWhitespace).reverse)

/-- Python slicing `s[:n]` by characters. -/
def strTake (s : String) (n : Nat) : String := String.mk (s.toList.take n)

/-- Character-list prefix test used to model `str.startswith`. -/
def isPrefixList : List Char → List Char → Bool
  | [], _ => true
  | _ :: _, [] => false
  | c :: cs, d :: ds => c == d && isPrefixList cs ds

/-- Python `s.startswith(pat)`. -/
def strStartsWith (s pat : String) : Bool := isPrefixList pat.toList s.toList

/-- Python `s.endswith(pat)`. -/
def strEndsWith (s pat : String) : Bool :=
  isPrefixList pat.toList.reverse s.toList.reverse

/-- Python `s.lower()`. -/
def strToLower (s : String) : String := String.mk (s.toList.map Char.toLower)

/-- Python string comparison `s < t`: lexicographic on code points, a proper
prefix being smaller. -/
def strLtChars : List Char → List Char → Bool
  | _, [] => false
  | [], _ :: _ => true
  | c :: cs, d :: ds => c < d || (c == d && strLtChars cs ds)

/-- Python string comparison `s < t` on `String`. -/
def strLt (s t : String) : Bool := strLtChars s.toList t.toList

/-- Python dict lookup `d[k]` (and the `k in d` test, via `isSome`). -/
def dictGet (k : String) : List (String × Session) → Option Session
  | [] => none
  | (k1, v) :: rest => if k1 = k then some v else dictGet k rest

/-- Python dict assignment `d[k] = v`: replaces in place when the key is
present (keeping its position), else appends at the end. -/
def dictInsert (k : String) (v : Session) :
    List (String × Session) → List (String × Session)
  | [] => [(k, v)]
  | (k1, v1) :: rest =>
    if k1 = k then (k, v) :: rest else (k1, v1) :: dictInsert k v rest

/-- Python `del d[k]`: removes the entry for `k`, preserving the order of
the remaining entries. -/
def dictDelete (k : String) :
    List (String × Session) → List (String × Session)
  | [] => []
  | (k1, v1) :: rest =>
    if k1 = k then rest else (k1, v1) :: dictDelete k rest

/-- Source `new_session_title` (main.py lines 32-33). -/
def new_session_title (sessions : List (String × Session)) : String :=
  "New Chat " ++ toString (sessions.length + 1)

/-- Source `create_session_object` (main.py lines 47-55): generates the id
from the current dict size and the whole-second timestamp, then stores a
fresh record under it.  Returns the id and the updated state. -/
def create_session_object (st : AppState) (ts : Nat) (iso : String) :
    String × AppState :=
  let session_id :=
    "session_" ++ toString (st.chat_sessions.length + 1) ++ "_" ++ toString ts
  let fresh : Session :=
    { history := [], created_at := iso,
      title := new_session_title st.chat_sessions, pinned := false }
  (session_id,
    { st with chat_sessions := dictInsert session_id fresh st.chat_sessions })

/-- Source `get_or_create_default_session` (main.py lines 35-40): when the
registry is empty it creates a session and makes it current, then returns
`chat_sessions[current_session_id]` (paired here with the id it is stored
under, since the model is immutable; a `KeyError` is `none`). -/
def get_or_create_default_session (st : AppState) (ts : Nat) (iso : String) :
    AppState × Option (String × Session) :=
  let st1 :=
    match st.chat_sessions with
    | [] =>
      let r := create_session_object st ts iso
      { r.2 with current_session_id := some r.1 }
    | _ :: _ => st
  (st1,
    match st1.current_session_id with
    | none => none
    | some sid => (dictGet sid st1.chat_sessions).map (fun s => (sid, s)))

/-- Helper for `slug_from_text`: the effect of `re.sub(r"\s+", " ", s)` on a
character list; the flag records whether the previous character was
whitespace (so a run collapses to a single space). -/
def collapseWsAux : List Char → Bool → List Char
  | [], _ => []
  | c :: rest, prevWs =>
    if c.isWhitespace then
      if prevWs then collapseWsAux rest true
      else ' ' :: collapseWsAux rest true
    else c :: collapseWsAux rest false

/-- Source `slug_from_text` (main.py lines 42-45): strip, collapse internal
whitespace runs to single spaces, truncate to `limit` characters; return
`None` (here `none`) when the result is empty. -/
def slug_from_text (text : String) (limit : Nat) : Option String :=
  let t := String.mk (collapseWsAux (pyStrip text).toList false)
  let t := strTake t limit
  if strIsEmpty t then none else some t

/-- One element of the `GET /api/sessions` response list
(main.py lines 70-76). -/
structure SessionSummary where
  id : String
  title : String
  created_at : String
  message_count : Nat
  pinned : Bool
deriving Repr, DecidableEq

/-- Per-session summaries in dict insertion order, before sorting
(main.py lines 67-76); `message_count` is
`sum(1 for c in history if getattr(c, "role", "") == "user")`. -/
def sessionsItems (st : AppState) : List SessionSummary :=
  st.chat_sessions.map (fun p =>
    { id := p.1, title := p.2.title, created_at := p.2.created_at,
      message_count := p.2.history.countP (fun c => c.role == "user"),
      pinned := p.2.pinned })

/-- Sort key of main.py line 77: the Python tuple
`((not x["pinned"]), x["created_at"])`. -/
def keyOf (x : SessionSummary) : Bool × String := (!x.pinned, x.created_at)

/-- Strict greater-than on sort keys, i.e. Python tuple comparison
`keyOf x > keyOf y` (False < True for booleans, lexicographic for the
ISO-format strings). -/
def keyGt (x y : SessionSummary) : Bool :=
  ((keyOf x).1 && !(keyOf y).1) ||
    ((keyOf x).1 == (keyOf y).1 && strLt (keyOf y).2 (keyOf x).2)

/-- Stable insertion step for descending order: `x` goes in front of the
first element whose key is not strictly greater, so equal keys keep their
original relative order, as Python `list.sort(reverse=True)` guarantees. -/
def insertDesc (x : SessionSummary) :
    List SessionSummary → List SessionSummary
  | [] => [x]
  | y :: rest => if keyGt y x then y :: insertDesc x rest else x :: y :: rest

/-- Stable descending sort, the model of Python
`items.sort(key=lambda x: ((not x["pinned"]), x["created_at"]), reverse=True)`
(main.py line 77). -/
def sortDesc : List SessionSummary → List SessionSummary
  | [] => []
  | x :: rest => insertDesc x (sortDesc rest)

/-- Source handler `get_sessions` for `GET /api/sessions`
(main.py lines 64-78): the sorted summary list plus the current id. -/
def get_sessions (st : AppState) : List SessionSummary × Option String :=
  (sortDesc (sessionsItems st), st.current_session_id)

/-- One serialized message of the `GET /api/sessions/{id}` response
(main.py lines 88-98); each part is a `(type, content)` pair. -/
structure MessageOut where
  role : String
  timestamp : String
  parts : List (String × String)
deriving Repr, DecidableEq

/-- Part serialization of main.py lines 93-97.  The SDK part object is a
pydantic model, so both the `text` and the `inline_data` attribute always
exist: the first branch fires only when `part.text` is truthy (non-empty),
and everything else falls into the `inline_data` branch. -/
def partOut : Part → String × String
  | Part.text s => if strIsEmpty s then ("image", "image_data") else ("text", s)
  | Part.image _ _ => ("image", "image_data")

/-- Body of the `GET /api/sessions/{id}` response (main.py lines 100-107). -/
structure SessionOut where
  id : String
  title : String
  created_at : String
  messages : List MessageOut
deriving Repr, DecidableEq

/-- Source handler `get_session` for `GET /api/sessions/{id}`
(main.py lines 80-107): 404 (`none`) when absent; otherwise every message
is stamped with `now_time()` — the HH:MM wall-clock string `nowHM` at the
moment of retrieval. -/
def get_session (st : AppState) (nowHM : String) (session_id : String) :
    Option SessionOut :=
  match dictGet session_id st.chat_sessions with
  | none => none
  | some session =>
    some { id := session_id, title := session.title,
           created_at := session.created_at,
           messages := session.history.map (fun content =>
             { role := content.role, timestamp := nowHM,
               parts := content.parts.map partOut }) }

/-- Source handler `create_session` for `POST /api/sessions`
(main.py lines 109-114): creates and makes current; returns the new id. -/
def create_session (st : AppState) (ts : Nat) (iso : String) :
    AppState × String :=
  let r := create_session_object st ts iso
  ({ r.2 with current_session_id := some r.1 }, r.1)

/-- JSON scalar values, as far as the update handler can see them; used to
model Python truthiness coercion `bool(...)`. -/
inductive JVal where
  | jnull
  | jbool (b : Bool)
  | jnum (n : Int)
  | jstr (s : String)
deriving Repr, DecidableEq

/-- Python `bool(v)` on a JSON scalar. -/
def JVal.toBool : JVal → Bool
  | .jnull => false
  | .jbool b => b
  | .jnum n => decide (n ≠ 0)
  | .jstr s => !s.isEmpty

/-- Body of `PUT /api/sessions/{id}`: `none` models an absent key.  A JSON
null title is modelled as `some ""`, matching the source coercion
`(data["title"] or "")`. -/
structure UpdateBody where
  title : Option String
  pinned : Option JVal
deriving Repr, DecidableEq

/-- Field mutations of `PUT /api/sessions/{id}` (main.py lines 121-124):
`title = (data["title"] or "").strip() or existing` and
`pinned = bool(data["pinned"])`, each applied only when the key is
present in the request body. -/
def applyUpdate (sess : Session) (body : UpdateBody) : Session :=
  let sess1 :=
    match body.title with
    | none => sess
    | some t =>
      let t1 := pyStrip t
      { sess with title := if strIsEmpty t1 then sess.title else t1 }
  match body.pinned with
  | none => sess1
  | some v => { sess1 with pinned := v.toBool }

/-- Source handler `update_session` for `PUT /api/sessions/{id}`
(main.py lines 116-125): 404 (`none`) when the id is absent, else the field
mutations of `applyUpdate` on the stored record. -/
def update_session (st : AppState) (session_id : String) (body : UpdateBody) :
    Option AppState :=
  match dictGet session_id st.chat_sessions with
  | none => none
  | some sess =>
    some { st with chat_sessions :=
             dictInsert session_id (applyUpdate sess body) st.chat_sessions }

/-- Source handler `delete_session` for `DELETE /api/sessions/{id}`
(main.py lines 127-137): 404 (`none`) when absent; removes the entry; when
it was current, repoints to `next(iter(chat_sessions.keys()), None)` — the
first remaining key — or creates a fresh default session when none remain.
Returns the new state and the `current` field of the response. -/
def delete_session (st : AppState) (session_id : String) (ts : Nat)
    (iso : String) : Option (AppState × Option String) :=
  match dictGet session_id st.chat_sessions with
  | none => none
  | some _ =>
    let sessions1 := dictDelete session_id st.chat_sessions
    if st.current_session_id = some session_id then
      match sessions1 with
      | (k, _) :: _ =>
        some ({ chat_sessions := sessions1, current_session_id := some k },
              some k)
      | [] =>
        let st1 : AppState :=
          { chat_sessions := sessions1, current_session_id := none }
        let r := create_session_object st1 ts iso
        some ({ r.2 with current_session_id := some r.1 }, some r.1)
    else
      some ({ st with chat_sessions := sessions1 }, st.current_session_id)

/-- Source handler `switch_session` for `POST /api/switch-session/{id}`
(main.py lines 139-145). -/
def switch_session (st : AppState) (session_id : String) : Option AppState :=
  match dictGet session_id st.chat_sessions with
  | none => none
  | some _ => some { st with current_session_id := some session_id }

/-- Source handler `reset` for `POST /reset` (main.py lines 147-152):
ensures a current session exists, then clears its history in place. -/
def reset (st : AppState) (ts : Nat) (iso : String) : Option AppState :=
  let r := get_or_create_default_session st ts iso
  match r.2 with
  | none => none
  | some (sid, sess) =>
    let cleared : Session := { sess with history := [] }
    some { r.1 with chat_sessions := dictInsert sid cleared r.1.chat_sessions }

/-- One uploaded file of a multipart `/chat` request: its bytes, the
declared content type (`f.mimetype`, where the empty string models an
absent declaration) and its filename. -/
structure UploadFile where
  content : List Nat
  mimetype : String
  filename : String
deriving Repr, DecidableEq

/-- MIME determination of main.py lines 173-183:
`mime = f.mimetype or "application/octet-stream"`, then extension-based
guessing exactly when `mime` is the generic binary default. -/
def guessMime (f : UploadFile) : String :=
  let mime :=
    if strIsEmpty f.mimetype then "application/octet-stream" else f.mimetype
  let name := strToLower f.filename
  if mime = "application/octet-stream" then
    if strEndsWith name ".png" then "image/png"
    else if strEndsWith name ".jpg" || strEndsWith name ".jpeg" then
      "image/jpeg"
    else if strEndsWith name ".webp" then "image/webp"
    else "image/*"
  else mime

/-- Input of `POST /chat` (main.py lines 155-190): a JSON body with a
message string (missing or null message modelled as `""`, matching
`data.get("message") or ""`), or a multipart form with a message and
uploaded files. -/
inductive ChatRequest where
  | json (message : String)
  | multipart (message : String) (files : List UploadFile)
deriving Repr, DecidableEq

/-- Source handler `chat` for `POST /chat` (main.py lines 155-231).
`modelReply` stands for the concatenated streamed reply of the external
model (or the error text built on failure); `ts`, `iso`, `nowHM` are the
clock readings.  Every return has HTTP status 200; `none` models the
`KeyError` that an unreachable dangling current pointer would raise.
Returns `(reply, time, new state)`. -/
def chat (st : AppState) (req : ChatRequest) (modelReply : String) (ts : Nat)
    (iso : String) (nowHM : String) :
    Option (String × String × AppState) :=
  let user_text :=
    pyStrip
      (match req with
       | .json m => m
       | .multipart m _ => m)
  let image_parts :=
    match req with
    | .json _ => []
    | .multipart _ files =>
      files.map (fun f => Part.image f.content (guessMime f))
  if strIsEmpty user_text && image_parts.isEmpty then
    some ("Please type or upload something.", nowHM, st)
  else
    let r := get_or_create_default_session st ts iso
    match r.2 with
    | none => none
    | some (sid, sess) =>
      let user_parts :=
        (if strIsEmpty user_text then [] else [Part.text user_text]) ++
          image_parts
      let hist1 := sess.history ++ [Content.mk "user" user_parts]
      let title1 :=
        if strStartsWith sess.title "New Chat" && !(strIsEmpty user_text) then
          match slug_from_text user_text 40 with
          | some maybe => maybe
          | none => sess.title
        else sess.title
      let hist2 := hist1 ++ [Content.mk "model" [Part.text modelReply]]
      let sess2 : Session := { sess with history := hist2, title := title1 }
      some (modelReply, nowHM,
        { r.1 with chat_sessions := dictInsert sid sess2 r.1.chat_sessions })

/-- One inbound HTTP request that can mutate the registry, with its clock
readings attached. -/
inductive Op where
  | indexOp (ts : Nat) (iso : String)
  | createOp (ts : Nat) (iso : String)
  | updateOp (id : String) (body : UpdateBody)
  | deleteOp (id : String) (ts : Nat) (iso : String)
  | switchOp (id : String)
  | resetOp (ts : Nat) (iso : String)
  | chatOp (req : ChatRequest) (reply : String) (ts : Nat) (iso : String)
      (hm : String)
deriving Repr, DecidableEq

/-- State transition of one request: handlers that answer 404 (or would
raise) leave the registry unchanged, since they return before mutating. -/
def applyOp (st : AppState) : Op → AppState
  | .indexOp ts iso => (get_or_create_default_session st ts iso).1
  | .createOp ts iso => (create_session st ts iso).1
  | .updateOp id body => (update_session st id body).getD st
  | .deleteOp id ts iso =>
    match delete_session st id ts iso with
    | some p => p.1
    | none => st
  | .switchOp id => (switch_session st id).getD st
  | .resetOp ts iso => (reset st ts iso).getD st
  | .chatOp req reply ts iso hm =>
    match chat st req reply ts iso hm with
    | some p => p.2.2
    | none => st

/-- Process start state (main.py lines 26-27): empty registry, no current
session. -/
def initState : AppState :=
  { chat_sessions := [], current_session_id := none }

/-- Registry state reached after a sequence of requests. -/
def runOps (ops : List Op) : AppState := ops.foldl applyOp initState

/-- Well-formedness of the current pointer: it is unset only while the
registry is empty, and otherwise resolves to a stored session. -/
def currentOk (st : AppState) : Prop :=
  match st.current_session_id with
  | none => st.chat_sessions = []
  | some sid => (dictGet sid st.chat_sessions).isSome = true

/-- Key uniqueness of the association-list model of the dict. -/
def keysNodup (st : AppState) : Prop :=
  (st.chat_sessions.map Prod.fst).Nodup

/-- Combined reachability invariant. -/
def Inv (st : AppState) : Prop := currentOk st ∧ keysNodup st

theorem dictGet_insert_self (k : String) (v : Session)
    (l : List (String × Session)) : dictGet k (dictInsert k v l) = some v := by
  induction l with
  | nil => simp [dictGet, dictInsert]
  | cons p rest ih =>
    obtain ⟨k1, v1⟩ := p
    by_cases h : k1 = k
    · simp [dictInsert, h, dictGet]
    · simp [dictInsert, h, dictGet, ih]

theorem dictGet_insert_ne {k k1 : String} (v : Session)
    (l : List (String × Session)) (h : k ≠ k1) :
    dictGet k (dictInsert k1 v l) = dictGet k l := by
  induction l with
  | nil => simp [dictGet, dictInsert, Ne.symm h]
  | cons p rest ih =>
    obtain ⟨k2, v2⟩ := p
    by_cases h2 : k2 = k1
    · simp [dictInsert, h2, dictGet, Ne.symm h]
    · simp [dictInsert, h2, dictGet, ih]

theorem dictGet_delete_ne {k k1 : String} (l : List (String × Session))
    (h : k ≠ k1) : dictGet k (dictDelete k1 l) = dictGet k l := by
  induction l with
  | nil => simp [dictDelete]
  | cons p rest ih =>
    obtain ⟨k2, v2⟩ := p
    by_cases h2 : k2 = k1
    · subst h2
      simp [dictDelete, dictGet, Ne.symm h]
    · by_cases h3 : k2 = k
      · simp [dictDelete, h2, dictGet, h3, h]
      · simp [dictDelete, h2, dictGet, h3, ih]

theorem mem_of_mem_dictDelete {p : String × Session} {k : String}
    {l : List (String × Session)} (h : p ∈ dictDelete k l) : p ∈ l := by
  induction l with
  | nil => simp [dictDelete] at h
  | cons q rest ih =>
    obtain ⟨k1, v1⟩ := q
    by_cases h1 : k1 = k
    · simp only [dictDelete, if_pos h1] at h
      exact List.mem_cons_of_mem _ h
    · simp only [dictDelete, if_neg h1, List.mem_cons] at h
      rcases h with h | h
      · exact List.mem_cons.mpr (Or.inl h)
      · exact List.mem_cons_of_mem _ (ih h)

theorem dictGet_isSome_of_mem {k : String} {v : Session}
    {l : List (String × Session)} (h : (k, v) ∈ l) :
    (dictGet k l).isSome = true := by
  induction l with
  | nil => simp at h
  | cons q rest ih =>
    obtain ⟨k1, v1⟩ := q
    by_cases h1 : k1 = k
    · simp [dictGet, h1]
    · rcases List.mem_cons.mp h with h2 | h2
      · exact absurd (congrArg Prod.fst h2).symm h1
      · simpa [dictGet, h1] using ih h2

theorem key_ne_of_mem_dictDelete {k k1 : String} {v : Session}
    {l : List (String × Session)} (nd : (l.map Prod.fst).Nodup)
    (h : (k, v) ∈ dictDelete k1 l) : k ≠ k1 := by
  induction l with
  | nil => simp [dictDelete] at h
  | cons q rest ih =>
    obtain ⟨k2, v2⟩ := q
    simp only [List.map_cons, List.nodup_cons] at nd
    by_cases h2 : k2 = k1
    · subst h2
      simp only [dictDelete, if_pos rfl] at h
      intro hk
      subst hk
      exact nd.1 (List.mem_map_of_mem Prod.fst h)
    · simp only [dictDelete, if_neg h2, List.mem_cons] at h
      rcases h with h | h
      · intro hk
        exact h2 ((congrArg Prod.fst h).symm.trans hk)
      · exact ih nd.2 h

theorem keys_dictInsert_subset {a k : String} (v : Session)
    {l : List (String × Session)}
    (h : a ∈ (dictInsert k v l).map Prod.fst) :
    a = k ∨ a ∈ l.map Prod.fst := by
  induction l with
  | nil => simpa [dictInsert] using h
  | cons q rest ih =>
    obtain ⟨k1, v1⟩ := q
    by_cases h1 : k1 = k
    · subst h1
      simpa [dictInsert] using h
    · simp only [dictInsert, if_neg h1, List.map_cons, List.mem_cons] at h
      rcases h with h | h
      · exact Or.inr (by simp [h])
      · rcases ih h with h2 | h2
        · exact Or.inl h2
        · exact Or.inr (by simp [h2])

theorem nodup_dictInsert (k : String) (v : Session)
    {l : List (String × Session)} (nd : (l.map Prod.fst).Nodup) :
    ((dictInsert k v l).map Prod.fst).Nodup := by
  induction l with
  | nil => simp [dictInsert]
  | cons q rest ih =>
    obtain ⟨k1, v1⟩ := q
    simp only [List.map_cons, List.nodup_cons] at nd
    by_cases h1 : k1 = k
    · have he : dictInsert k v ((k1, v1) :: rest) = (k, v) :: rest := by
        simp [dictInsert, h1]
      rw [he]
      simp only [List.map_cons, List.nodup_cons]
      rw [h1] at nd
      exact nd
    · simp only [dictInsert, if_neg h1, List.map_cons, List.nodup_cons]
      constructor
      · intro hmem
        rcases keys_dictInsert_subset v hmem with h2 | h2
        · exact h1 h2
        · exact nd.1 h2
      · exact ih nd.2

theorem keys_dictDelete_subset {a k : String} {l : List (String × Session)}
    (h : a ∈ (dictDelete k l).map Prod.fst) : a ∈ l.map Prod.fst := by
  rcases List.mem_map.mp h with ⟨p, hp, rfl⟩
  exact List.mem_map_of_mem Prod.fst (mem_of_mem_dictDelete hp)

theorem nodup_dictDelete (k : String) {l : List (String × Session)}
    (nd : (l.map Prod.fst).Nodup) :
    ((dictDelete k l).map Prod.fst).Nodup := by
  induction l with
  | nil => simp [dictDelete]
  | cons q rest ih =>
    obtain ⟨k1, v1⟩ := q
    simp only [List.map_cons, List.nodup_cons] at nd
    by_cases h1 : k1 = k
    · simp only [dictDelete, if_pos h1]
      exact nd.2
    · simp only [dictDelete, if_neg h1, List.map_cons, List.nodup_cons]
      exact ⟨fun hmem => nd.1 (keys_dictDelete_subset hmem), ih nd.2⟩

theorem currentOk_none {st : AppState} (h : st.current_session_id = none) :
    currentOk st ↔ st.chat_sessions = [] := by
  unfold currentOk
  rw [h]

theorem currentOk_some {st : AppState} {sid : String}
    (h : st.current_session_id = some sid) :
    currentOk st ↔ (dictGet sid st.chat_sessions).isSome = true := by
  unfold currentOk
  rw [h]

theorem gocd_fst_nonempty (st : AppState) (ts : Nat) (iso : String)
    (h : st.chat_sessions ≠ []) :
    (get_or_create_default_session st ts iso).1 = st := by
  rcases hl : st.chat_sessions with _ | ⟨p, rest⟩
  · exact absurd hl h
  · simp [get_or_create_default_session, hl]

theorem gocd_fst_empty (st : AppState) (ts : Nat) (iso : String)
    (h : st.chat_sessions = []) :
    (get_or_create_default_session st ts iso).1 =
      { chat_sessions :=
          [("session_" ++ toString 1 ++ "_" ++ toString ts,
            { history := [], created_at := iso,
              title := "New Chat " ++ toString 1, pinned := false })],
        current_session_id :=
          some ("session_" ++ toString 1 ++ "_" ++ toString ts) } := by
  simp [get_or_create_default_session, h, create_session_object,
    new_session_title, dictInsert]

theorem gocd_snd_empty (st : AppState) (ts : Nat) (iso : String)
    (h : st.chat_sessions = []) :
    (get_or_create_default_session st ts iso).2 =
      some ("session_" ++ toString 1 ++ "_" ++ toString ts,
        { history := [], created_at := iso,
          title := "New Chat " ++ toString 1, pinned := false }) := by
  simp [get_or_create_default_session, h, create_session_object,
    new_session_title, dictInsert, dictGet]

theorem gocd_some (st : AppState) (ts : Nat) (iso : String) (sid : String)
    (sess : Session)
    (h : (get_or_create_default_session st ts iso).2 = some (sid, sess)) :
    (get_or_create_default_session st ts iso).1.current_session_id =
        some sid ∧
      dictGet sid (get_or_create_default_session st ts iso).1.chat_sessions =
        some sess := by
  rcases hl : st.chat_sessions with _ | ⟨p, rest⟩
  · rw [gocd_snd_empty st ts iso hl] at h
    obtain ⟨h1, h2⟩ := Prod.mk.injEq .. ▸ (Option.some.inj h)
    rw [gocd_fst_empty st ts iso hl]
    refine ⟨?_, ?_⟩
    · rw [← h1]
    · rw [← h1, ← h2]
      simp [dictGet]
  · cases hc : st.current_session_id with
    | none => simp [get_or_create_default_session, hl, hc] at h
    | some cur =>
      simp only [get_or_create_default_session, hl, hc] at h ⊢
      rcases Option.map_eq_some'.mp h with ⟨a, ha, heq⟩
      obtain ⟨h1, h2⟩ := Prod.mk.injEq .. ▸ heq
      refine ⟨by rw [h1], ?_⟩
      rw [h1] at ha
      rw [ha, h2]

theorem gocd_fst_ne_nil (st : AppState) (ts : Nat) (iso : String) :
    (get_or_create_default_session st ts iso).1.chat_sessions ≠ [] := by
  rcases hl : st.chat_sessions with _ | ⟨p, rest⟩
  · rw [gocd_fst_empty st ts iso hl]
    simp
  · rw [gocd_fst_nonempty st ts iso (by rw [hl]; simp)]
    rw [hl]
    simp

theorem inv_gocd (st : AppState) (ts : Nat) (iso : String) (h : Inv st) :
    Inv (get_or_create_default_session st ts iso).1 := by
  rcases hl : st.chat_sessions with _ | ⟨p, rest⟩
  · rw [gocd_fst_empty st ts iso hl]
    constructor
    · rw [currentOk_some rfl]
      simp [dictGet]
    · simp [keysNodup]
  · rw [gocd_fst_nonempty st ts iso (by rw [hl]; simp)]
    exact h

theorem update_session_none (st : AppState) (id : String) (body : UpdateBody) :
    update_session st id body = none ↔ dictGet id st.chat_sessions = none := by
  cases hg : dictGet id st.chat_sessions with
  | none => simp [update_session, hg]
  | some sess => simp [update_session, hg]

theorem update_session_some (st : AppState) (id : String) (body : UpdateBody)
    (st' : AppState) (h : update_session st id body = some st') :
    ∃ sess, dictGet id st.chat_sessions = some sess ∧
      st' = { st with chat_sessions :=
                dictInsert id (applyUpdate sess body) st.chat_sessions } := by
  cases hg : dictGet id st.chat_sessions with
  | none => rw [update_session, hg] at h; exact absurd h (by simp)
  | some sess =>
    rw [update_session, hg] at h
    exact ⟨sess, rfl, (Option.some.inj h).symm⟩

theorem switch_session_some (st : AppState) (id : String) (st' : AppState)
    (h : switch_session st id = some st') :
    (dictGet id st.chat_sessions).isSome = true ∧
      st' = { st with current_session_id := some id } := by
  cases hg : dictGet id st.chat_sessions with
  | none => rw [switch_session, hg] at h; exact absurd h (by simp)
  | some sess =>
    rw [switch_session, hg] at h
    exact ⟨rfl, (Option.some.inj h).symm⟩

theorem delete_session_some (st : AppState) (id : String) (ts : Nat)
    (iso : String) (p : AppState × Option String)
    (h : delete_session st id ts iso = some p) :
    (dictGet id st.chat_sessions).isSome = true ∧
    ((∃ k v tail, st.current_session_id = some id ∧
        dictDelete id st.chat_sessions = (k, v) :: tail ∧
        p = ({ chat_sessions := (k, v) :: tail,
               current_session_id := some k }, some k)) ∨
     (∃ sid sess, st.current_session_id = some id ∧
        dictDelete id st.chat_sessions = [] ∧
        sess.history = [] ∧ sess.pinned = false ∧ sess.created_at = iso ∧
        p = ({ chat_sessions := [(sid, sess)],
               current_session_id := some sid }, some sid)) ∨
     (st.current_session_id ≠ some id ∧
        p = ({ st with chat_sessions := dictDelete id st.chat_sessions },
             st.current_session_id))) := by
  cases hg : dictGet id st.chat_sessions with
  | none => rw [delete_session, hg] at h; exact absurd h (by simp)
  | some sess0 =>
    rw [delete_session, hg] at h
    refine ⟨rfl, ?_⟩
    by_cases hc : st.current_session_id = some id
    · rw [if_pos hc] at h
      cases hd : dictDelete id st.chat_sessions with
      | cons q tail =>
        obtain ⟨k, v⟩ := q
        rw [hd] at h
        exact Or.inl ⟨k, v, tail, hc, rfl, (Option.some.inj h).symm⟩
      | nil =>
        rw [hd] at h
        refine Or.inr (Or.inl ?_)
        refine ⟨"session_" ++ toString 1 ++ "_" ++ toString ts,
          { history := [], created_at := iso,
            title := "New Chat " ++ toString 1, pinned := false },
          hc, rfl, rfl, rfl, rfl, ?_⟩
        rw [← Option.some.inj h]
        simp [create_session_object, new_session_title, dictInsert]
    · rw [if_neg hc] at h
      exact Or.inr (Or.inr ⟨hc, (Option.some.inj h).symm⟩)

theorem reset_some (st : AppState) (ts : Nat) (iso : String) (st' : AppState)
    (h : reset st ts iso = some st') :
    ∃ sid sess,
      (get_or_create_default_session st ts iso).2 = some (sid, sess) ∧
      st' = { (get_or_create_default_session st ts iso).1 with
              chat_sessions :=
                dictInsert sid { sess with history := [] }
                  (get_or_create_default_session st ts iso).1.chat_sessions } := by
  rw [reset] at h
  cases hg : (get_or_create_default_session st ts iso).2 with
  | none => rw [hg] at h; exact absurd h (by simp)
  | some q =>
    obtain ⟨sid, sess⟩ := q
    rw [hg] at h
    exact ⟨sid, sess, rfl, (Option.some.inj h).symm⟩

theorem chat_some_state (st : AppState) (req : ChatRequest) (reply : String)
    (ts : Nat) (iso : String) (hm : String)
    (out : String × String × AppState)
    (h : chat st req reply ts iso hm = some out) :
    out.2.2 = st ∨
    ∃ sid sess sess2,
      (get_or_create_default_session st ts iso).2 = some (sid, sess) ∧
      out.2.2 = { (get_or_create_default_session st ts iso).1 with
                  chat_sessions :=
                    dictInsert sid sess2
                      (get_or_create_default_session st ts iso).1.chat_sessions } := by
  rw [chat.eq_def] at h
  dsimp only at h
  split at h
  · exact Or.inl (by rw [← Option.some.inj h])
  · cases hg : (get_or_create_default_session st ts iso).2 with
    | none => rw [hg] at h; exact absurd h (by simp)
    | some q =>
      obtain ⟨sid, sess⟩ := q
      rw [hg] at h
      dsimp only at h
      obtain rfl := (Option.some.inj h).symm
      exact Or.inr ⟨sid, sess, _, rfl, rfl⟩

theorem inv_applyOp (st : AppState) (op : Op) (h : Inv st) :
    Inv (applyOp st op) := by
  obtain ⟨hcur, hnd⟩ := h
  cases op with
  | indexOp ts iso => exact inv_gocd st ts iso ⟨hcur, hnd⟩
  | createOp ts iso =>
    show Inv (create_session st ts iso).1
    constructor
    · show (dictGet
          ("session_" ++ toString (st.chat_sessions.length + 1) ++ "_" ++
            toString ts)
          (dictInsert
            ("session_" ++ toString (st.chat_sessions.length + 1) ++ "_" ++
              toString ts)
            { history := [], created_at := iso,
              title := new_session_title st.chat_sessions, pinned := false }
            st.chat_sessions)).isSome = true
      rw [dictGet_insert_self]
      rfl
    · show keysNodup _
      exact nodup_dictInsert _ _ hnd
  | updateOp id body =>
    show Inv ((update_session st id body).getD st)
    cases hu : update_session st id body with
    | none => exact ⟨hcur, hnd⟩
    | some st' =>
      rw [Option.getD_some]
      obtain ⟨sess, hg, rfl⟩ := update_session_some st id body st' hu
      constructor
      · show currentOk _
        cases hc : st.current_session_id with
        | none =>
          rw [(currentOk_none hc).mp hcur] at hg
          simp [dictGet] at hg
        | some cur =>
          show (dictGet cur
            (dictInsert id (applyUpdate sess body) st.chat_sessions)).isSome =
              true
          by_cases hk : cur = id
          · rw [hk, dictGet_insert_self]
            rfl
          · rw [dictGet_insert_ne _ _ hk]
            exact (currentOk_some hc).mp hcur
      · show keysNodup _
        exact nodup_dictInsert _ _ hnd
  | deleteOp id ts iso =>
    show Inv (match delete_session st id ts iso with
              | some p => p.1
              | none => st)
    cases hdel : delete_session st id ts iso with
    | none => exact ⟨hcur, hnd⟩
    | some p =>
      show Inv p.1
      obtain ⟨_, hcase⟩ := delete_session_some st id ts iso p hdel
      rcases hcase with ⟨k, v, tail, _, hd, rfl⟩ |
        ⟨sid, sess, _, _, _, _, _, rfl⟩ | ⟨hne, rfl⟩
      · constructor
        · show (dictGet k ((k, v) :: tail)).isSome = true
          simp [dictGet]
        · show (((k, v) :: tail).map Prod.fst).Nodup
          rw [← hd]
          exact nodup_dictDelete _ hnd
      · constructor
        · show (dictGet sid [(sid, sess)]).isSome = true
          simp [dictGet]
        · show ([(sid, sess)].map Prod.fst).Nodup
          simp
      · constructor
        · show currentOk _
          cases hc : st.current_session_id with
          | none =>
            have hemp := (currentOk_none hc).mp hcur
            show dictDelete id st.chat_sessions = []
            rw [hemp]
            rfl
          | some cur =>
            show (dictGet cur (dictDelete id st.chat_sessions)).isSome = true
            have hkne : cur ≠ id := by
              intro hk
              exact hne (hc.trans (congrArg some hk))
            rw [dictGet_delete_ne _ hkne]
            exact (currentOk_some hc).mp hcur
        · show ((dictDelete id st.chat_sessions).map Prod.fst).Nodup
          exact nodup_dictDelete _ hnd
  | switchOp id =>
    show Inv ((switch_session st id).getD st)
    cases hs : switch_session st id with
    | none => exact ⟨hcur, hnd⟩
    | some st' =>
      rw [Option.getD_some]
      obtain ⟨hg, rfl⟩ := switch_session_some st id st' hs
      constructor
      · show (dictGet id st.chat_sessions).isSome = true
        exact hg
      · exact hnd
  | resetOp ts iso =>
    show Inv ((reset st ts iso).getD st)
    cases hr : reset st ts iso with
    | none => exact ⟨hcur, hnd⟩
    | some st' =>
      rw [Option.getD_some]
      obtain ⟨sid, sess, hg, rfl⟩ := reset_some st ts iso st' hr
      obtain ⟨hcur1, _⟩ := gocd_some st ts iso sid sess hg
      have hinv1 := inv_gocd st ts iso ⟨hcur, hnd⟩
      constructor
      · show currentOk (AppState.mk
          (dictInsert sid { sess with history := [] }
            (get_or_create_default_session st ts iso).1.chat_sessions)
          (get_or_create_default_session st ts iso).1.current_session_id)
        rw [hcur1]
        show (dictGet sid (dictInsert sid { sess with history := [] }
          (get_or_create_default_session st ts iso).1.chat_sessions)).isSome =
            true
        rw [dictGet_insert_self]
        rfl
      · show keysNodup _
        exact nodup_dictInsert _ _ hinv1.2
  | chatOp req reply ts iso hm =>
    show Inv (match chat st req reply ts iso hm with
              | some p => p.2.2
              | none => st)
    cases hch : chat st req reply ts iso hm with
    | none => exact ⟨hcur, hnd⟩
    | some out =>
      show Inv out.2.2
      rcases chat_some_state st req reply ts iso hm out hch with he | hshape
      · rw [he]
        exact ⟨hcur, hnd⟩
      · obtain ⟨sid, sess, sess2, hg, hout⟩ := hshape
        rw [hout]
        obtain ⟨hcur1, _⟩ := gocd_some st ts iso sid sess hg
        have hinv1 := inv_gocd st ts iso ⟨hcur, hnd⟩
        constructor
        · show currentOk (AppState.mk
            (dictInsert sid sess2
              (get_or_create_default_session st ts iso).1.chat_sessions)
            (get_or_create_default_session st ts iso).1.current_session_id)
          rw [hcur1]
          show (dictGet sid (dictInsert sid sess2
            (get_or_create_default_session st ts iso).1.chat_sessions)).isSome =
              true
          rw [dictGet_insert_self]
          rfl
        · show keysNodup _
          exact nodup_dictInsert _ _ hinv1.2

theorem strIsEmpty_iff (s : String) : strIsEmpty s = true ↔ s = "" := by
  cases s with
  | mk data =>
    cases data with
    | nil => simp [strIsEmpty]
    | cons c cs =>
      simp only [strIsEmpty, String.toList, List.isEmpty_cons,
        Bool.false_eq_true, false_iff]
      intro hcon
      exact List.cons_ne_nil c cs (congrArg String.data hcon)

theorem inv_runOps (ops : List Op) : Inv (runOps ops) := by
  have base : Inv initState := ⟨rfl, List.nodup_nil⟩
  have step : ∀ (st : AppState), Inv st →
      ∀ (l : List Op), Inv (l.foldl applyOp st) := by
    intro st hst l
    induction l generalizing st with
    | nil => exact hst
    | cons op rest ih =>
      exact ih (applyOp st op) (inv_applyOp st op hst)
  exact step initState base ops

theorem gocd_snd_nonempty (st : AppState) (ts : Nat) (iso : String)
    (h : st.chat_sessions ≠ []) (cur : String)
    (hc : st.current_session_id = some cur) :
    (get_or_create_default_session st ts iso).2 =
      (dictGet cur st.chat_sessions).map (fun s => (cur, s)) := by
  rcases hl : st.chat_sessions with _ | ⟨p, rest⟩
  · exact absurd hl h
  · simp [get_or_create_default_session, hl, hc]

theorem insertDesc_perm (x : SessionSummary) (l : List SessionSummary) :
    (insertDesc x l).Perm (x :: l) := by
  induction l with
  | nil => exact List.Perm.refl _
  | cons y rest ih =>
    unfold insertDesc
    by_cases hk : keyGt y x = true
    · rw [if_pos hk]
      exact (ih.cons y).trans (List.Perm.swap x y rest)
    · rw [if_neg hk]

theorem sortDesc_perm (l : List SessionSummary) : (sortDesc l).Perm l := by
  induction l with
  | nil => exact List.Perm.refl _
  | cons x rest ih =>
    exact (insertDesc_perm x (sortDesc rest)).trans (ih.cons x)

/-- C1: the spec states that in the `GET /api/sessions` output every pinned
session precedes every unpinned one.  Evaluating the handler on a reachable
registry holding one pinned and one unpinned session shows the code emits
the unpinned session first: the sort key `((not pinned), created_at)`
combined with `reverse=True` inverts the intended pin ordering, so the code
contradicts both the spec and its own comment on main.py line 66
("sort: pinned first, then newest created").  Within each pin group the
`created_at` ordering is indeed descending. -/
theorem C1_unpinned_sorted_before_pinned :
    (get_sessions (runOps
      [Op.createOp 1 "2024-01-01T00:00:00",
       Op.createOp 2 "2024-01-01T00:00:01",
       Op.updateOp "session_1_1"
         { title := none, pinned := some (JVal.jbool true) }])).1.map
        (fun x => (x.id, x.pinned)) =
      [("session_2_2", false), ("session_1_1", true)] := by
  decide

/-- C2: the spec states that a generated session id always differs from the
ids already in the registry, so a create never replaces an existing record.
Evaluating the code on create, create, delete-the-first, create — all within
the same clock second (equal whole-second timestamps, which is exactly the
"rapid creation" the id scheme is said to guard against) — shows the fourth
operation regenerates the id of the still-present second session
(`len+1` reuses the freed ordinal) and silently replaces its record: the
registry still holds one session afterwards, and its `created_at` has
changed from "b" (second create) to "d" (fourth create). -/
theorem C2_session_id_collision :
    (runOps [Op.createOp 7 "a", Op.createOp 7 "b",
             Op.deleteOp "session_1_7" 7 "c"]).chat_sessions =
      [("session_2_7",
        { history := [], created_at := "b", title := "New Chat 2",
          pinned := false })] ∧
    (runOps [Op.createOp 7 "a", Op.createOp 7 "b",
             Op.deleteOp "session_1_7" 7 "c",
             Op.createOp 7 "d"]).chat_sessions =
      [("session_2_7",
        { history := [], created_at := "d", title := "New Chat 2",
          pinned := false })] := by
  decide

/-- C3: the spec states the auto-title rule fires at most once per session,
so after a title has been derived from the first user turn, later turns
never change it.  Evaluating the code on a fresh session shows otherwise:
the first chat turn "New Chat hello" sets the title to "New Chat hello",
and because that derived title still starts with "New Chat", the second
turn "second" re-derives the title to "second" — contradicting the spec and
the code's own comment on main.py line 207 ("Auto-title the session from
first user text (once)"). -/
theorem C3_autotitle_reapplied :
    (dictGet "session_1_1" (runOps [Op.createOp 1 "a",
       Op.chatOp (ChatRequest.json "New Chat hello") "r1" 1 "a"
         "10:00"]).chat_sessions).map Session.title =
      some "New Chat hello" ∧
    (dictGet "session_1_1" (runOps [Op.createOp 1 "a",
       Op.chatOp (ChatRequest.json "New Chat hello") "r1" 1 "a" "10:00",
       Op.chatOp (ChatRequest.json "second") "r2" 1 "a"
         "10:01"]).chat_sessions).map Session.title =
      some "second" := by
  decide

/-- C8: a `/chat` request whose message is empty or whitespace-only after
trimming and which carries no images returns HTTP 200 with the fixed
prompt reply and the current time, and leaves the whole state — hence every
session's history — unchanged (the handler returns before touching the
registry). -/
theorem C8_empty_chat_is_noop (st : AppState) (msg reply : String) (ts : Nat)
    (iso hm : String) (h : pyStrip msg = "") :
    chat st (ChatRequest.json msg) reply ts iso hm =
      some ("Please type or upload something.", hm, st) ∧
    chat st (ChatRequest.multipart msg []) reply ts iso hm =
      some ("Please type or upload something.", hm, st) := by
  have hc : strIsEmpty (pyStrip msg) = true := by rw [h]; rfl
  constructor
  · simp [chat, hc]
  · simp [chat, hc]

/-- C8 witness: a whitespace-only JSON message against the start state. -/
theorem C8_empty_chat_is_noop_witness :
    chat initState (ChatRequest.json "   ") "r" 0 "i" "09:00" =
      some ("Please type or upload something.", "09:00", initState) ∧
    chat initState (ChatRequest.multipart "   " []) "r" 0 "i" "09:00" =
      some ("Please type or upload something.", "09:00", initState) :=
  C8_empty_chat_is_noop initState "   " "r" 0 "i" "09:00" (by decide)

/-- C9 counterexample: the claim says the MIME type used is the declared
content type whenever that type is not `application/octet-stream`.  A file
uploaded with no declared type (empty `mimetype`) and filename `x.png`
refutes it: the empty string is not the binary default, yet the code first
coerces it to `application/octet-stream` and then guesses `image/png` from
the extension, so the MIME used differs from the declared one. -/
theorem C9_counterexample_empty_declared_type :
    ({ content := [], mimetype := "",
       filename := "x.png" } : UploadFile).mimetype ≠
        "application/octet-stream" ∧
    guessMime { content := [], mimetype := "", filename := "x.png" } ≠
      ({ content := [], mimetype := "",
         filename := "x.png" } : UploadFile).mimetype := by
  decide

/-- C9 (amended): the declared content type is used verbatim whenever it is
non-empty and not `application/octet-stream`; extension-based guessing
(`.png`, `.jpg`/`.jpeg`, `.webp`, else the generic image wildcard) is
applied exactly when the declared type is empty/absent or is
`application/octet-stream` (an absent type is first defaulted to the
binary default by `f.mimetype or "application/octet-stream"`). -/
theorem C9_mime_determination (f : UploadFile) :
    (f.mimetype ≠ "" → f.mimetype ≠ "application/octet-stream" →
      guessMime f = f.mimetype) ∧
    ((f.mimetype = "" ∨ f.mimetype = "application/octet-stream") →
      guessMime f =
        (let name := strToLower f.filename
         if strEndsWith name ".png" then "image/png"
         else if strEndsWith name ".jpg" || strEndsWith name ".jpeg" then
           "image/jpeg"
         else if strEndsWith name ".webp" then "image/webp"
         else "image/*")) := by
  constructor
  · intro h1 h2
    have hne : ¬(strIsEmpty f.mimetype = true) := fun hcon =>
      h1 ((strIsEmpty_iff f.mimetype).mp hcon)
    unfold guessMime
    simp only [if_neg hne, if_neg h2]
  · intro h12
    rcases h12 with h1 | h2
    · have hye : strIsEmpty f.mimetype = true := (strIsEmpty_iff _).mpr h1
      unfold guessMime
      simp only [if_pos hye, if_pos rfl, if_true]
    · unfold guessMime
      by_cases hye : strIsEmpty f.mimetype = true
      · simp only [if_pos hye, if_pos rfl, if_true]
      · simp only [if_neg hye, if_pos h2]

/-- C9 witness: a declared `image/gif` beats the `.png` extension, while a
file without a declared type falls back to extension guessing. -/
theorem C9_mime_determination_witness :
    ({ content := [], mimetype := "image/gif",
       filename := "x.png" } : UploadFile).mimetype ≠ "" ∧
    guessMime { content := [], mimetype := "image/gif",
                filename := "x.png" } = "image/gif" ∧
    guessMime { content := [], mimetype := "", filename := "y.JPG" } =
      "image/jpeg" := by
  refine ⟨by decide, ?_, ?_⟩
  · exact (C9_mime_determination
      { content := [], mimetype := "image/gif", filename := "x.png" }).1
      (by decide) (by decide)
  · exact ((C9_mime_determination
      { content := [], mimetype := "", filename := "y.JPG" }).2
      (Or.inl rfl)).trans (by decide)

/-- C4: for any reachable state, deleting a present session leaves the
current pointer on an id that resolves in the new registry (and the handler
reports that id); when the deleted session was current and others remain,
the new current is a different, previously existing session; when the
registry would become empty, a fresh default session (empty history,
unpinned) is created and becomes the only, current session. -/
theorem C4_delete_keeps_current_valid (ops : List Op) (id : String) (ts : Nat)
    (iso : String) (st' : AppState) (cur : Option String)
    (h : delete_session (runOps ops) id ts iso = some (st', cur)) :
    (∃ sid, st'.current_session_id = some sid ∧ cur = some sid ∧
      (dictGet sid st'.chat_sessions).isSome = true) ∧
    ((runOps ops).current_session_id = some id →
      dictDelete id (runOps ops).chat_sessions ≠ [] →
      ∃ sid, st'.current_session_id = some sid ∧ sid ≠ id ∧
        (dictGet sid (runOps ops).chat_sessions).isSome = true) ∧
    ((runOps ops).current_session_id = some id →
      dictDelete id (runOps ops).chat_sessions = [] →
      ∃ sid sess, st'.current_session_id = some sid ∧
        st'.chat_sessions = [(sid, sess)] ∧ sess.history = [] ∧
        sess.pinned = false) := by
  obtain ⟨hcur, hnd⟩ := inv_runOps ops
  obtain ⟨hpresent, hcase⟩ :=
    delete_session_some (runOps ops) id ts iso (st', cur) h
  rcases hcase with ⟨k, v, tail, hc, hd, hp⟩ |
    ⟨sid, sess, hc, hd, hh, hpin, hcr, hp⟩ | ⟨hne, hp⟩
  · obtain ⟨hp1, hp2⟩ := Prod.mk.injEq .. ▸ hp
    have hmemdel : (k, v) ∈ dictDelete id (runOps ops).chat_sessions := by
      rw [hd]
      exact List.mem_cons_self _ _
    refine ⟨⟨k, ?_, ?_, ?_⟩, ?_, ?_⟩
    · rw [hp1]
    · rw [hp2]
    · rw [hp1]
      simp [dictGet]
    · intro _ _
      refine ⟨k, by rw [hp1], ?_, ?_⟩
      · exact key_ne_of_mem_dictDelete hnd hmemdel
      · exact dictGet_isSome_of_mem (mem_of_mem_dictDelete hmemdel)
    · intro _ hnil
      rw [hd] at hnil
      exact absurd hnil (List.cons_ne_nil _ _)
  · obtain ⟨hp1, hp2⟩ := Prod.mk.injEq .. ▸ hp
    refine ⟨⟨sid, ?_, ?_, ?_⟩, ?_, ?_⟩
    · rw [hp1]
    · rw [hp2]
    · rw [hp1]
      simp [dictGet]
    · intro _ hnonnil
      exact absurd hd hnonnil
    · intro _ _
      exact ⟨sid, sess, by rw [hp1], by rw [hp1], hh, hpin⟩
  · obtain ⟨hp1, hp2⟩ := Prod.mk.injEq .. ▸ hp
    cases hc2 : (runOps ops).current_session_id with
    | none =>
      have hemp := (currentOk_none hc2).mp hcur
      rw [hemp] at hpresent
      simp [dictGet] at hpresent
    | some c =>
      have hcne : c ≠ id := fun hk => hne (hc2.trans (congrArg some hk))
      have hcg := (currentOk_some hc2).mp hcur
      refine ⟨⟨c, ?_, ?_, ?_⟩, ?_, ?_⟩
      · rw [hp1]
        exact hc2
      · rw [hp2]
        exact hc2
      · rw [hp1]
        show (dictGet c
          (dictDelete id (runOps ops).chat_sessions)).isSome = true
        rw [dictGet_delete_ne _ hcne]
        exact hcg
      · intro hcid _
        exact absurd (Option.some.inj hcid) hcne
      · intro hcid _
        exact absurd (Option.some.inj hcid) hcne

/-- C4 witness: deleting the only session of a reachable one-session
registry creates a fresh default session and points current at it. -/
theorem C4_delete_keeps_current_valid_witness :
    ∃ sid,
      ({ chat_sessions :=
           [("session_1_2",
             { history := [], created_at := "b", title := "New Chat 1",
               pinned := false })],
         current_session_id :=
           some "session_1_2" } : AppState).current_session_id = some sid ∧
      (some "session_1_2" : Option String) = some sid ∧
      (dictGet sid
        ({ chat_sessions :=
             [("session_1_2",
               { history := [], created_at := "b", title := "New Chat 1",
                 pinned := false })],
           current_session_id :=
             some "session_1_2" } : AppState).chat_sessions).isSome = true :=
  (C4_delete_keeps_current_valid [Op.createOp 1 "a"] "session_1_1" 2 "b"
    { chat_sessions :=
        [("session_1_2",
          { history := [], created_at := "b", title := "New Chat 1",
            pinned := false })],
      current_session_id := some "session_1_2" }
    (some "session_1_2") (by decide)).1

/-- C5: on a reachable empty registry, the ensure-default operation creates
exactly one session, points current at it and returns it; on a reachable
non-empty registry it changes nothing and returns the current session; and
running it twice gives the same state as running it once (idempotence). -/
theorem C5_ensure_default_idempotent (ops : List Op) (ts ts2 : Nat)
    (iso iso2 : String) :
    ((runOps ops).chat_sessions = [] →
      ((get_or_create_default_session (runOps ops) ts
          iso).1.chat_sessions.length = 1 ∧
       ∃ sid sess,
         (get_or_create_default_session (runOps ops) ts iso).2 =
           some (sid, sess) ∧
         (get_or_create_default_session (runOps ops) ts
             iso).1.current_session_id = some sid ∧
         dictGet sid
           (get_or_create_default_session (runOps ops) ts
             iso).1.chat_sessions = some sess)) ∧
    ((runOps ops).chat_sessions ≠ [] →
      ((get_or_create_default_session (runOps ops) ts iso).1 = runOps ops ∧
       ∃ sid sess,
         (get_or_create_default_session (runOps ops) ts iso).2 =
           some (sid, sess) ∧
         (runOps ops).current_session_id = some sid ∧
         dictGet sid (runOps ops).chat_sessions = some sess)) ∧
    (get_or_create_default_session
        ((get_or_create_default_session (runOps ops) ts iso).1) ts2 iso2).1 =
      (get_or_create_default_session (runOps ops) ts iso).1 := by
  obtain ⟨hcur, hnd⟩ := inv_runOps ops
  refine ⟨?_, ?_, ?_⟩
  · intro hemp
    rw [gocd_fst_empty _ _ _ hemp, gocd_snd_empty _ _ _ hemp]
    refine ⟨rfl, _, _, rfl, rfl, ?_⟩
    simp [dictGet]
  · intro hne
    cases hc : (runOps ops).current_session_id with
    | none => exact absurd ((currentOk_none hc).mp hcur) hne
    | some cur =>
      have hcg := (currentOk_some hc).mp hcur
      rcases Option.isSome_iff_exists.mp hcg with ⟨sess, hsess⟩
      refine ⟨gocd_fst_nonempty _ _ _ hne, cur, sess, ?_, rfl, hsess⟩
      rw [gocd_snd_nonempty _ _ _ hne cur hc, hsess]
      rfl
  · exact gocd_fst_nonempty _ ts2 iso2 (gocd_fst_ne_nil _ ts iso)

/-- C5 witness: the empty-registry branch at the start state and the
no-op branch after one create. -/
theorem C5_ensure_default_idempotent_witness :
    ((get_or_create_default_session (runOps []) 5
        "d").1.chat_sessions.length = 1 ∧
     ∃ sid sess,
       (get_or_create_default_session (runOps []) 5 "d").2 =
         some (sid, sess) ∧
       (get_or_create_default_session (runOps []) 5
           "d").1.current_session_id = some sid ∧
       dictGet sid
         (get_or_create_default_session (runOps []) 5 "d").1.chat_sessions =
           some sess) ∧
    ((get_or_create_default_session (runOps [Op.createOp 1 "x"]) 5 "d").1 =
        runOps [Op.createOp 1 "x"] ∧
     ∃ sid sess,
       (get_or_create_default_session (runOps [Op.createOp 1 "x"]) 5
           "d").2 = some (sid, sess) ∧
       (runOps [Op.createOp 1 "x"]).current_session_id = some sid ∧
       dictGet sid (runOps [Op.createOp 1 "x"]).chat_sessions = some sess) :=
  ⟨(C5_ensure_default_idempotent [] 5 6 "d" "e").1 rfl,
   (C5_ensure_default_idempotent [Op.createOp 1 "x"] 5 6 "d" "e").2.1
     (by decide)⟩

/-- C6: every session stored in the registry appears in the
`GET /api/sessions` output with `message_count` equal to the number of its
history entries whose role is "user" (model turns are not counted). -/
theorem C6_message_count_is_user_turns (st : AppState) (sid : String)
    (sess : Session) (h : (sid, sess) ∈ st.chat_sessions) :
    ∃ x ∈ (get_sessions st).1, x.id = sid ∧
      x.message_count =
        (sess.history.filter (fun c => c.role == "user")).length := by
  refine ⟨{ id := sid, title := sess.title, created_at := sess.created_at,
            message_count := sess.history.countP (fun c => c.role == "user"),
            pinned := sess.pinned }, ?_, rfl, ?_⟩
  · show _ ∈ sortDesc (sessionsItems st)
    rw [(sortDesc_perm (sessionsItems st)).mem_iff]
    exact List.mem_map_of_mem _ h
  · exact List.countP_eq_length_filter _ _

/-- C6 witness: a registry with one session whose history holds two user
turns and one model turn. -/
theorem C6_message_count_is_user_turns_witness :
    ∃ x ∈ (get_sessions
      { chat_sessions :=
          [("s", { history :=
                     [Content.mk "user" [Part.text "hi"],
                      Content.mk "model" [Part.text "yo"],
                      Content.mk "user" [Part.text "again"]],
                   created_at := "c", title := "T", pinned := false })],
        current_session_id := some "s" }).1, x.id = "s" ∧
      x.message_count =
        (([Content.mk "user" [Part.text "hi"],
           Content.mk "model" [Part.text "yo"],
           Content.mk "user" [Part.text "again"]] : List Content).filter
            (fun c => c.role == "user")).length :=
  C6_message_count_is_user_turns
    { chat_sessions :=
        [("s", { history :=
                   [Content.mk "user" [Part.text "hi"],
                    Content.mk "model" [Part.text "yo"],
                    Content.mk "user" [Part.text "again"]],
                 created_at := "c", title := "T", pinned := false })],
      current_session_id := some "s" } "s"
    { history :=
        [Content.mk "user" [Part.text "hi"],
         Content.mk "model" [Part.text "yo"],
         Content.mk "user" [Part.text "again"]],
      created_at := "c", title := "T", pinned := false }
    (by decide)

/-- C7: the update handler fails iff the id is absent (leaving the state
unchanged); when present, a provided title is stripped and applied only if
non-empty (whitespace-only keeps the old title), a provided pinned value is
set to its Python boolean coercion, omitted fields and all other sessions
are unchanged, and the current pointer is untouched. -/
theorem C7_update_semantics (st : AppState) (id : String) (body : UpdateBody) :
    (update_session st id body = none ↔ dictGet id st.chat_sessions = none) ∧
    (dictGet id st.chat_sessions = none →
      applyOp st (Op.updateOp id body) = st) ∧
    (∀ sess, dictGet id st.chat_sessions = some sess →
      ∃ st', update_session st id body = some st' ∧
        st'.current_session_id = st.current_session_id ∧
        (∀ other, other ≠ id →
          dictGet other st'.chat_sessions = dictGet other st.chat_sessions) ∧
        ∃ sess', dictGet id st'.chat_sessions = some sess' ∧
          sess'.history = sess.history ∧
          sess'.created_at = sess.created_at ∧
          sess'.title = (match body.title with
            | none => sess.title
            | some t =>
              if strIsEmpty (pyStrip t) then sess.title else pyStrip t) ∧
          sess'.pinned = (match body.pinned with
            | none => sess.pinned
            | some v => v.toBool)) := by
  refine ⟨update_session_none st id body, ?_, ?_⟩
  · intro hg
    show (update_session st id body).getD st = st
    rw [(update_session_none st id body).mpr hg]
    rfl
  · intro sess hg
    refine ⟨{ st with
        chat_sessions :=
          dictInsert id (applyUpdate sess body) st.chat_sessions },
      ?_, rfl, ?_, ?_⟩
    · rw [update_session, hg]
    · intro other hother
      exact dictGet_insert_ne _ _ hother
    · refine ⟨applyUpdate sess body, dictGet_insert_self _ _ _,
        ?_, ?_, ?_, ?_⟩
      · obtain ⟨tOpt, pOpt⟩ := body
        cases tOpt <;> cases pOpt <;> rfl
      · obtain ⟨tOpt, pOpt⟩ := body
        cases tOpt <;> cases pOpt <;> rfl
      · obtain ⟨tOpt, pOpt⟩ := body
        cases tOpt <;> cases pOpt <;> rfl
      · obtain ⟨tOpt, pOpt⟩ := body
        cases tOpt <;> cases pOpt <;> rfl

/-- C7 witness: a whitespace-only title together with a truthy numeric
pinned value leaves the title unchanged and sets pinned to true. -/
theorem C7_update_semantics_witness :
    ∃ st', update_session
        { chat_sessions :=
            [("s", { history := [], created_at := "c", title := "Old",
                     pinned := false })],
          current_session_id := some "s" } "s"
        { title := some "  ", pinned := some (JVal.jnum 1) } = some st' ∧
      st'.current_session_id = some "s" ∧
      (∀ other, other ≠ "s" →
        dictGet other st'.chat_sessions =
          dictGet other
            [("s", { history := [], created_at := "c", title := "Old",
                     pinned := false })]) ∧
      ∃ sess', dictGet "s" st'.chat_sessions = some sess' ∧
        sess'.history = ([] : List Content) ∧
        sess'.created_at = "c" ∧
        sess'.title = "Old" ∧
        sess'.pinned = true :=
  (C7_update_semantics
    { chat_sessions :=
        [("s", { history := [], created_at := "c", title := "Old",
                 pinned := false })],
      current_session_id := some "s" } "s"
    { title := some "  ", pinned := some (JVal.jnum 1) }).2.2
    { history := [], created_at := "c", title := "Old", pinned := false }
    (by decide)

/-- C10: in the single-session fetch, every message is stamped with the
wall-clock time of the moment of retrieval, so all messages of one response
share the same timestamp, and fetching the same unchanged session at two
different times yields different message lists for identical stored
turns. -/
theorem C10_get_session_timestamps (st : AppState) (sid : String)
    (sess : Session) (t1 t2 : String)
    (h : dictGet sid st.chat_sessions = some sess) :
    (∃ out, get_session st t1 sid = some out ∧
      ∀ m ∈ out.messages, m.timestamp = t1) ∧
    (sess.history ≠ [] → t1 ≠ t2 →
      (get_session st t1 sid).map SessionOut.messages ≠
        (get_session st t2 sid).map SessionOut.messages) := by
  have hgs1 : get_session st t1 sid =
      some { id := sid, title := sess.title, created_at := sess.created_at,
             messages := sess.history.map (fun content =>
               { role := content.role, timestamp := t1,
                 parts := content.parts.map partOut }) } := by
    rw [get_session, h]
  have hgs2 : get_session st t2 sid =
      some { id := sid, title := sess.title, created_at := sess.created_at,
             messages := sess.history.map (fun content =>
               { role := content.role, timestamp := t2,
                 parts := content.parts.map partOut }) } := by
    rw [get_session, h]
  constructor
  · refine ⟨_, hgs1, ?_⟩
    intro m hm
    rcases List.mem_map.mp hm with ⟨c, hc, rfl⟩
    rfl
  · intro hne hts
    rw [hgs1, hgs2]
    intro heq
    cases hh : sess.history with
    | nil => exact absurd hh hne
    | cons c cs =>
      rw [hh] at heq
      simp only [Option.map_some', List.map_cons] at heq
      have h1 := Option.some.inj heq
      have h2 := congrArg List.head? h1
      simp only [List.head?_cons] at h2
      exact hts (congrArg MessageOut.timestamp (Option.some.inj h2))

/-- C10 witness: fetching a one-turn session at 10:00 and at 10:01. -/
theorem C10_get_session_timestamps_witness :
    (∃ out, get_session
        { chat_sessions :=
            [("s", { history := [Content.mk "user" [Part.text "hi"]],
                     created_at := "c", title := "T", pinned := false })],
          current_session_id := some "s" } "10:00" "s" = some out ∧
      ∀ m ∈ out.messages, m.timestamp = "10:00") ∧
    (get_session
        { chat_sessions :=
            [("s", { history := [Content.mk "user" [Part.text "hi"]],
                     created_at := "c", title := "T", pinned := false })],
          current_session_id := some "s" } "10:00" "s").map
        SessionOut.messages ≠
      (get_session
        { chat_sessions :=
            [("s", { history := [Content.mk "user" [Part.text "hi"]],
                     created_at := "c", title := "T", pinned := false })],
          current_session_id := some "s" } "10:01" "s").map
        SessionOut.messages := by
  have h := C10_get_session_timestamps
    { chat_sessions :=
        [("s", { history := [Content.mk "user" [Part.text "hi"]],
                 created_at := "c", title := "T", pinned := false })],
      current_session_id := some "s" } "s"
    { history := [Content.mk "user" [Part.text "hi"]],
      created_at := "c", title := "T", pinned := false }
    "10:00" "10:01" (by decide)
  exact ⟨h.1, h.2 (by decide) (by decide)⟩

end ChatBot
